import Mathlib

/-!
Verification of the hw-invest-proxy quote-caching HTTP proxy (src/proxy.js).

The source is a single-file Express service: an in-memory quote cache, a
bulk refresh loop over a fixed symbol list, an on-demand `/api/quote`
handler, a `/api/quotes` snapshot endpoint, a CORS middleware, and a
rate-limiter configuration.  We embed each of these as pure Lean
functions.  The upstream HTTP call is modelled as an oracle
`upstream : String → Except String α`: `Except.ok body` stands for a
successful response with body `body`, `Except.error msg` for a transport
error, non-success status or parse failure whose message is `msg`.  The
payload type is an opaque parameter `α`.  Wall-clock reads (`Date.now()`)
are modelled by explicit time parameters; the bulk refresher receives a
clock indexed by iteration number.
-/

namespace HwInvestProxy

/-- One cache entry, `{data, timestamp}` as written at src/proxy.js:83-86
and 118-121. -/
structure CachedQuote (α : Type) where
  data : α
  timestamp : Nat
deriving DecidableEq, Repr

/-- The `quoteCache.data` object: a finite mapping from symbol to entry,
modelled as an association list (lookup by first match, update in place). -/
abbrev CacheData (α : Type) := List (String × CachedQuote α)

/-- Property lookup `quoteCache.data[symbol]`. -/
def CacheData.getEntry {α : Type} (c : CacheData α) (s : String) :
    Option (CachedQuote α) :=
  (c.find? (fun p => p.1 = s)).map Prod.snd

/-- Property assignment `quoteCache.data[symbol] = e`: overwrite the entry
in place if the key exists, otherwise add it. -/
def CacheData.putEntry {α : Type} (c : CacheData α) (s : String)
    (e : CachedQuote α) : CacheData α :=
  match c with
  | [] => [(s, e)]
  | p :: rest =>
      if p.1 = s then (s, e) :: rest else p :: CacheData.putEntry rest s e

/-- True when `s` is a key of the cache. -/
def CacheData.hasKey {α : Type} (c : CacheData α) (s : String) : Bool :=
  (c.getEntry s).isSome

/-- The `quoteCache` singleton (src/proxy.js:11-14): entry map plus the
collection-level `lastUpdated` timestamp. -/
structure QuoteCache (α : Type) where
  data : CacheData α
  lastUpdated : Nat
deriving DecidableEq, Repr

/-- The hardcoded `MONITORED_STOCKS` list (src/proxy.js:62-70). -/
def MONITORED_STOCKS : List String :=
  ["AAPL", "MSFT", "AMZN", "GOOGL", "META",
   "TSLA", "NVDA", "JPM", "JNJ", "V",
   "WMT", "KO", "PG", "NFLX", "DIS",
   "PFE", "INTC", "MA", "UNH", "VZ",
   "AMD", "PYPL", "ADBE", "CRM", "BA",
   "GE", "SBUX", "MCD", "ABNB", "UBER",
   "COST", "TGT", "F", "NKE", "T"]

/-- Embedding of `fetchStockData` (src/proxy.js:48-59).  Given the outcome of the one
outbound request, it returns the response body unmodified on success; on
any failure the `catch` block logs the symbol and the error message and
returns `null` (here `none`).  The second component is the log line the
call emits, if any.  The function is total: no outcome escapes as an
exception. -/
def fetchStockData {α : Type} (symbol : String) (resp : Except String α) :
    Option α × Option String :=
  match resp with
  | Except.ok body => (some body, none)
  | Except.error msg =>
      (none, some ("Error fetching " ++ symbol ++ ": " ++ msg))

/-- Intermediate state of one bulk-refresh pass: the cache entries so far,
the symbols for which `fetchStockData` has been invoked (in order), and the
error log lines emitted. -/
structure PassState (α : Type) where
  cache : CacheData α
  fetched : List String
  logs : List String
deriving DecidableEq, Repr

/-- The `for (const symbol of MONITORED_STOCKS)` loop body of
`updateAllStocks` (src/proxy.js:79-94).  `clock i` is the value of
`Date.now()` during iteration `i`.  Each iteration fetches the symbol; on
a payload it writes `{data, timestamp: clock i}` to the cache; on `null`
it skips the write.  The per-iteration `try/catch` means no iteration can
abort the loop, which the embedding reflects by being total and always
recursing on the tail. -/
def updateAllStocksLoop {α : Type} (upstream : String → Except String α)
    (clock : Nat → Nat) :
    List String → Nat → PassState α → PassState α
  | [], _, st => st
  | symbol :: rest, i, st =>
      let r := fetchStockData symbol (upstream symbol)
      let cache1 : CacheData α :=
        match r.1 with
        | some d => st.cache.putEntry symbol ⟨d, clock i⟩
        | none => st.cache
      updateAllStocksLoop upstream clock rest (i + 1)
        { cache := cache1
          fetched := st.fetched ++ [symbol]
          logs := st.logs ++ r.2.toList }

/-- Embedding of `updateAllStocks` (src/proxy.js:73-98): walk the symbol list, then set
`quoteCache.lastUpdated = Date.now()` unconditionally; `clock
symbols.length` is that final clock read.  Returns the updated cache
together with the trace of symbols actually fetched. -/
def updateAllStocks {α : Type} (upstream : String → Except String α)
    (clock : Nat → Nat) (symbols : List String) (qc : QuoteCache α) :
    QuoteCache α × List String :=
  let st := updateAllStocksLoop upstream clock symbols 0 ⟨qc.data, [], []⟩
  ({ data := st.cache, lastUpdated := clock symbols.length }, st.fetched)

/-- HTTP response of the `/api/quote` handler. -/
inductive QuoteResponse (α : Type) where
  | ok (body : α)
  | badRequest (error : String)
  | notFound (error : String)
deriving DecidableEq, Repr

/-- Result of one `/api/quote` request: the response, the cache state
afterwards, and whether the upstream was called. -/
structure QuoteOutcome (α : Type) where
  response : QuoteResponse α
  cache : CacheData α
  upstreamCalled : Bool
deriving DecidableEq, Repr

/-- JavaScript truthiness of `req.query.symbol` as used by `if (!symbol)`
(src/proxy.js:104): the parameter is falsy when absent or the empty
string. -/
def isFalsyParam (symbol : Option String) : Bool :=
  match symbol with
  | none => true
  | some s => s = ""

/-- The miss/stale branch of the `/api/quote` handler
(src/proxy.js:115-129): call `fetchStockData`; on a payload, write it to
the cache with timestamp `writeTime` and return it with 200; on `null`,
return 404 with the error body, leaving the cache untouched. -/
def handleQuoteFetch {α : Type} (upstream : String → Except String α)
    (writeTime : Nat) (symbol : String) (cache : CacheData α) :
    QuoteOutcome α :=
  match (fetchStockData symbol (upstream symbol)).1 with
  | some d =>
      { response := QuoteResponse.ok d
        cache := cache.putEntry symbol ⟨d, writeTime⟩
        upstreamCalled := true }
  | none =>
      { response := QuoteResponse.notFound "Symbol data not available"
        cache := cache
        upstreamCalled := true }

/-- The `GET /api/quote` handler (src/proxy.js:101-130).  `now` is the
`Date.now()` of the freshness check, `writeTime` the `Date.now()` of a
cache write in the fetch branch.  Missing/empty `symbol` → 400; a cached
entry with `now - timestamp < 3*60*1000` is served directly with no
upstream call; otherwise the fetch branch runs. -/
def handleQuote {α : Type} (upstream : String → Except String α)
    (now writeTime : Nat) (symbolParam : Option String)
    (cache : CacheData α) : QuoteOutcome α :=
  if isFalsyParam symbolParam then
    { response := QuoteResponse.badRequest "Symbol parameter is required"
      cache := cache
      upstreamCalled := false }
  else
    let symbol := symbolParam.getD ""
    match cache.getEntry symbol with
    | some entry =>
        if now - entry.timestamp < 3 * 60 * 1000 then
          { response := QuoteResponse.ok entry.data
            cache := cache
            upstreamCalled := false }
        else
          handleQuoteFetch upstream writeTime symbol cache
    | none => handleQuoteFetch upstream writeTime symbol cache

/-- The formatting loop of `GET /api/quotes` (src/proxy.js:141-143): map
every cached symbol to its stored payload, stripping the per-entry
timestamp metadata. -/
def snapshot {α : Type} (c : CacheData α) : List (String × α) :=
  c.map (fun p => (p.1, p.2.data))

/-- The `GET /api/quotes` handler (src/proxy.js:133-146): returns
`{lastUpdated, data}` where `data` is the snapshot of every entry, with
no freshness filtering. -/
def handleQuotes {α : Type} (qc : QuoteCache α) : Nat × List (String × α) :=
  (qc.lastUpdated, snapshot qc.data)

/-- Lookup in a payload mapping as returned by `handleQuotes`. -/
def lookupPayload {α : Type} (m : List (String × α)) (s : String) :
    Option α :=
  (m.find? (fun p => p.1 = s)).map Prod.snd

/-- The two compiled-in allow-listed origins (src/proxy.js:32-35). -/
def allowedOrigins : List String :=
  ["https://hw-invest.web.app", "https://hw-invest.firebaseapp.com"]

/-- CORS response headers set by the middleware. -/
structure CorsHeaders where
  allowOrigin : Option String
  allowHeaders : String
deriving DecidableEq, Repr

/-- The CORS middleware (src/proxy.js:30-44): reflect
`Access-Control-Allow-Origin` only when the Origin header of the request is
present and contained in `allowedOrigins` (`includes` on an absent header
is false); always set `Access-Control-Allow-Headers` to the fixed list. -/
def corsMiddleware (origin : Option String) : CorsHeaders :=
  { allowOrigin :=
      match origin with
      | some o => if o ∈ allowedOrigins then some o else none
      | none => none
    allowHeaders :=
      "Origin, X-Requested-With, Content-Type, Accept, X-API-Key" }

/-- Constant `windowMs` of the limiter configuration (src/proxy.js:21). -/
def windowMs : Nat := 15 * 60 * 1000

/-- Constant `max` of the limiter configuration (src/proxy.js:22). -/
def maxPerWindow : Nat := 100

/-- Constant `message` of the limiter configuration (src/proxy.js:25). -/
def rateLimitMessage : String := "Too many requests, please try again later"

/-- Decision of the rate limiter for one request. -/
inductive LimiterDecision where
  | allowed
  | rejected (message : String) (standardHeaders : Bool)
deriving DecidableEq, Repr

/-- Modelled from the spec: the per-IP fixed-window rate limiter is the
`express-rate-limit` dependency, whose implementation is not under src/;
only its configuration (src/proxy.js:20-27) is.  Per the spec, within one
15-minute window the requests of a client beyond the first `max` (= 100) are
rejected with the fixed message and standard rate-limit headers;
`priorCount` is the number of requests the same IP already made in the
current window. -/
def rateLimit (priorCount : Nat) : LimiterDecision :=
  if priorCount < maxPerWindow then LimiterDecision.allowed
  else LimiterDecision.rejected rateLimitMessage true

/-- Result of an `/api/*` request as seen through the limiter: the
decision of the limiter, the outcome of the route handler when it ran, the cache
state afterwards, and whether the upstream was called. -/
structure LimitedOutcome (α : Type) where
  decision : LimiterDecision
  handled : Option (QuoteOutcome α)
  cache : CacheData α
  upstreamCalled : Bool
deriving DecidableEq, Repr

/-- An `/api/quote` request behind the limiter (mounted at `app.use` on
`/api/`, src/proxy.js:27, before the route handlers): a rejected request
never reaches the handler, so the cache is unchanged and the upstream is
not called. -/
def rateLimitedQuote {α : Type} (priorCount : Nat)
    (upstream : String → Except String α) (now writeTime : Nat)
    (symbolParam : Option String) (cache : CacheData α) :
    LimitedOutcome α :=
  match rateLimit priorCount with
  | LimiterDecision.allowed =>
      let o := handleQuote upstream now writeTime symbolParam cache
      { decision := LimiterDecision.allowed
        handled := some o
        cache := o.cache
        upstreamCalled := o.upstreamCalled }
  | LimiterDecision.rejected m h =>
      { decision := LimiterDecision.rejected m h
        handled := none
        cache := cache
        upstreamCalled := false }



/-! ## Concrete fixtures used by the witness theorems -/

/-- A concrete upstream oracle over `Nat` payloads: the fetch for `AAPL`
fails with a transport error, every other symbol succeeds with body 42. -/
def demoUpstream : String → Except String Nat :=
  fun s => if s = "AAPL" then Except.error "socket hang up" else Except.ok 42

/-- A concrete strictly increasing clock. -/
def demoClock : Nat → Nat := fun i => 1000 + i

/-- A concrete three-symbol monitored list. -/
def demoSymbols : List String := ["AAPL", "MSFT", "AMZN"]

/-- A concrete starting cache: one pre-existing entry for `AAPL`. -/
def demoCache0 : QuoteCache Nat :=
  { data := [("AAPL", ⟨7, 5⟩)], lastUpdated := 5 }

/-- A concrete cache holding an `AAPL` entry written at time 1000. -/
def demoFreshCache : CacheData Nat := [("AAPL", ⟨7, 1000⟩)]


/-! ## Basic cache lemmas -/

theorem getEntry_cons {α : Type} (p : String × CachedQuote α)
    (rest : CacheData α) (s : String) :
    CacheData.getEntry (p :: rest) s =
      if p.1 = s then some p.2 else rest.getEntry s := by
  by_cases h : p.1 = s <;> simp [CacheData.getEntry, List.find?_cons, h]

theorem getEntry_putEntry_self {α : Type} (c : CacheData α) (s : String)
    (e : CachedQuote α) : (c.putEntry s e).getEntry s = some e := by
  induction c with
  | nil => simp [CacheData.putEntry, getEntry_cons]
  | cons p rest ih =>
      by_cases h : p.1 = s
      · simp [CacheData.putEntry, h, getEntry_cons]
      · simp [CacheData.putEntry, h, getEntry_cons, ih]

theorem getEntry_putEntry_ne {α : Type} (c : CacheData α) {s t : String}
    (h : s ≠ t) (e : CachedQuote α) :
    (c.putEntry s e).getEntry t = c.getEntry t := by
  induction c with
  | nil => simp [CacheData.putEntry, getEntry_cons, h]
  | cons p rest ih =>
      by_cases hp : p.1 = s
      · simp [CacheData.putEntry, hp, getEntry_cons, h]
      · simp [CacheData.putEntry, hp, getEntry_cons, ih]

theorem hasKey_putEntry {α : Type} (c : CacheData α) (s t : String)
    (e : CachedQuote α) (h : c.hasKey t = true) :
    (c.putEntry s e).hasKey t = true := by
  by_cases hst : s = t
  · subst hst; simp [CacheData.hasKey, getEntry_putEntry_self]
  · simpa [CacheData.hasKey, getEntry_putEntry_ne c hst e] using h

/-! ## Bulk-refresh loop lemmas -/

theorem loop_fetched {α : Type} (upstream : String → Except String α)
    (clock : Nat → Nat) (l : List String) :
    ∀ (i : Nat) (st : PassState α),
      (updateAllStocksLoop upstream clock l i st).fetched = st.fetched ++ l := by
  induction l with
  | nil => intro i st; simp [updateAllStocksLoop]
  | cons t rest ih =>
      intro i st
      simp only [updateAllStocksLoop]
      rw [ih]
      simp

theorem loop_getEntry_of_fail {α : Type} (upstream : String → Except String α)
    (clock : Nat → Nat) (s : String)
    (hfail : (fetchStockData s (upstream s)).1 = none) (l : List String) :
    ∀ (i : Nat) (st : PassState α),
      (updateAllStocksLoop upstream clock l i st).cache.getEntry s =
        st.cache.getEntry s := by
  induction l with
  | nil => intro i st; simp [updateAllStocksLoop]
  | cons t rest ih =>
      intro i st
      simp only [updateAllStocksLoop]
      rw [ih]
      by_cases hts : t = s
      · subst hts; simp [hfail]
      · cases hft : (fetchStockData t (upstream t)).1 with
        | none => simp [hft]
        | some d => simp [hft, getEntry_putEntry_ne _ hts]

theorem loop_getEntry_of_not_mem {α : Type}
    (upstream : String → Except String α) (clock : Nat → Nat) (s : String)
    (l : List String) (hnm : s ∉ l) :
    ∀ (i : Nat) (st : PassState α),
      (updateAllStocksLoop upstream clock l i st).cache.getEntry s =
        st.cache.getEntry s := by
  induction l with
  | nil => intro i st; simp [updateAllStocksLoop]
  | cons t rest ih =>
      intro i st
      have hts : t ≠ s := fun h => hnm (h ▸ List.mem_cons_self t rest)
      have hrest : s ∉ rest := fun h => hnm (List.mem_cons_of_mem t h)
      simp only [updateAllStocksLoop]
      rw [ih hrest]
      cases hft : (fetchStockData t (upstream t)).1 with
      | none => simp [hft]
      | some d => simp [hft, getEntry_putEntry_ne _ hts]

theorem loop_getEntry_of_success {α : Type}
    (upstream : String → Except String α) (clock : Nat → Nat) (s : String)
    (d : α) (hok : (fetchStockData s (upstream s)).1 = some d)
    (l : List String) :
    ∀ (i : Nat) (st : PassState α), s ∈ l →
      ∃ j, i ≤ j ∧ j < i + l.length ∧
        (updateAllStocksLoop upstream clock l i st).cache.getEntry s =
          some ⟨d, clock j⟩ := by
  induction l with
  | nil => intro i st h; cases h
  | cons t rest ih =>
      intro i st hmem
      by_cases hrest : s ∈ rest
      · simp only [updateAllStocksLoop]
        obtain ⟨j, hj1, hj2, hj3⟩ := ih (i + 1) _ hrest
        exact ⟨j, by omega, by simpa using by omega, hj3⟩
      · have hts : t = s := by
          rcases List.mem_cons.mp hmem with h | h
          · exact h.symm
          · exact absurd h hrest
        subst hts
        simp only [updateAllStocksLoop, hok]
        refine ⟨i, le_refl i, by simp, ?_⟩
        rw [loop_getEntry_of_not_mem upstream clock t rest hrest]
        exact getEntry_putEntry_self _ _ _

theorem loop_hasKey {α : Type} (upstream : String → Except String α)
    (clock : Nat → Nat) (s : String) (l : List String) :
    ∀ (i : Nat) (st : PassState α), st.cache.hasKey s = true →
      (updateAllStocksLoop upstream clock l i st).cache.hasKey s = true := by
  induction l with
  | nil => intro i st h; simpa [updateAllStocksLoop] using h
  | cons t rest ih =>
      intro i st h
      simp only [updateAllStocksLoop]
      apply ih
      cases hft : (fetchStockData t (upstream t)).1 with
      | none => simpa [hft] using h
      | some d => simpa [hft] using hasKey_putEntry _ _ _ _ h

/-! ## Claim theorems -/

/-- C3: `fetchStockData` never raises to its caller: it is a total
function which, on a successful upstream response, returns the body
unmodified (with no log line), and on any transport error, non-success
status or parse failure returns the absent result `none` together with a
log line naming the symbol and the error message. -/
theorem fetchStockData_total_spec {α : Type} (s : String)
    (resp : Except String α) :
    (∀ body : α, resp = Except.ok body →
      fetchStockData s resp = (some body, none)) ∧
    (∀ msg : String, resp = Except.error msg →
      fetchStockData s resp =
        (none, some ("Error fetching " ++ s ++ ": " ++ msg))) := by
  constructor
  · intro body h; subst h; rfl
  · intro msg h; subst h; rfl

/-- Witness for C3 at a concrete success and a concrete failure. -/
theorem fetchStockData_total_spec_witness :
    fetchStockData "MSFT" (Except.ok (42 : Nat)) = (some 42, none) ∧
    fetchStockData "AAPL" (Except.error "socket hang up" : Except String Nat) =
      (none, some ("Error fetching " ++ "AAPL" ++ ": " ++ "socket hang up")) :=
  ⟨(fetchStockData_total_spec "MSFT" (Except.ok (42 : Nat))).1 42 rfl,
   (fetchStockData_total_spec "AAPL"
      (Except.error "socket hang up" : Except String Nat)).2
      "socket hang up" rfl⟩

/-- C7: a `GET /api/quote` request with no `symbol` query parameter is
answered 400 with the structured error body, for every upstream oracle,
every pair of clock readings and every cache state; the cache is not
touched and the upstream is not called. -/
theorem handleQuote_missing_symbol_400 {α : Type}
    (upstream : String → Except String α) (now writeTime : Nat)
    (cache : CacheData α) :
    handleQuote upstream now writeTime none cache =
      { response := QuoteResponse.badRequest "Symbol parameter is required"
        cache := cache
        upstreamCalled := false } := rfl

/-- C6: the CORS middleware reflects `Access-Control-Allow-Origin` (with
exactly the request's Origin value) iff that value is one of the two
compiled-in allow-listed origins; for any other Origin (or an absent one)
the header is omitted; `Access-Control-Allow-Headers` is always the fixed
allow-list. -/
theorem corsMiddleware_allowlist_spec (origin : Option String) :
    (∀ o : String, origin = some o →
      ((corsMiddleware origin).allowOrigin = some o ↔
        (o = "https://hw-invest.web.app" ∨
         o = "https://hw-invest.firebaseapp.com"))) ∧
    ((∀ o : String, origin = some o → o ∉ allowedOrigins) →
      (corsMiddleware origin).allowOrigin = none) ∧
    (corsMiddleware origin).allowHeaders =
      "Origin, X-Requested-With, Content-Type, Accept, X-API-Key" := by
  refine ⟨?_, ?_, rfl⟩
  · intro o h
    subst h
    constructor
    · intro hset
      by_cases hm : o ∈ allowedOrigins
      · simpa [allowedOrigins] using hm
      · simp [corsMiddleware, hm] at hset
    · intro ho
      have hm : o ∈ allowedOrigins := by
        rcases ho with h1 | h1 <;> simp [allowedOrigins, h1]
      simp [corsMiddleware, hm]
  · intro hforall
    cases origin with
    | none => rfl
    | some o =>
        have hm := hforall o rfl
        simp [corsMiddleware, hm]

/-- Witness for C6: an allow-listed origin is reflected, a foreign origin
gets no `Access-Control-Allow-Origin` header, and the fixed
`Access-Control-Allow-Headers` value is always set. -/
theorem corsMiddleware_allowlist_spec_witness :
    (corsMiddleware (some "https://hw-invest.web.app")).allowOrigin =
      some "https://hw-invest.web.app" ∧
    (corsMiddleware (some "https://evil.example")).allowOrigin = none ∧
    (corsMiddleware (some "https://evil.example")).allowHeaders =
      "Origin, X-Requested-With, Content-Type, Accept, X-API-Key" := by
  refine ⟨?_, ?_,
    (corsMiddleware_allowlist_spec (some "https://evil.example")).2.2⟩
  · exact ((corsMiddleware_allowlist_spec
      (some "https://hw-invest.web.app")).1 _ rfl).mpr (Or.inl rfl)
  · refine (corsMiddleware_allowlist_spec (some "https://evil.example")).2.1 ?_
    intro o ho
    have h : "https://evil.example" = o := by injection ho
    subst h
    decide

/-- C2: for a request on symbol `s` whose cache entry was written at time
`entry.timestamp` with payload `entry.data`: a request strictly before
`timestamp + 180000` ms is answered 200 with the cached payload, with the
cache unchanged and no upstream call; a request at `timestamp + 180000`
ms or later performs an upstream fetch. -/
theorem handleQuote_freshness_window {α : Type}
    (upstream : String → Except String α) (now writeTime : Nat) (s : String)
    (cache : CacheData α) (entry : CachedQuote α) (hs : s ≠ "")
    (hget : cache.getEntry s = some entry) :
    (now < entry.timestamp + 3 * 60 * 1000 →
      handleQuote upstream now writeTime (some s) cache =
        { response := QuoteResponse.ok entry.data
          cache := cache
          upstreamCalled := false }) ∧
    (entry.timestamp + 3 * 60 * 1000 ≤ now →
      (handleQuote upstream now writeTime (some s) cache).upstreamCalled =
        true) := by
  have hfalsy : isFalsyParam (some s) = false := by simp [isFalsyParam, hs]
  constructor
  · intro hfresh
    have hlt : now - entry.timestamp < 3 * 60 * 1000 := by omega
    simp [handleQuote, hfalsy, hget, hlt]
  · intro hstale
    have hlt : ¬ now - entry.timestamp < 3 * 60 * 1000 := by omega
    simp only [handleQuote, hfalsy, Bool.false_eq_true, if_false,
      Option.getD_some, hget, hlt, if_false]
    cases hft : (fetchStockData s (upstream s)).1 <;>
      simp [handleQuoteFetch, hft]

/-- Witness for C2: with an entry written at time 1000, a request at
180999 ms (179.999 s later) is served from the cache with no upstream
call, and a request at 181000 ms (180 s later) calls the upstream. -/
theorem handleQuote_freshness_window_witness :
    handleQuote demoUpstream 180999 180999 (some "AAPL") demoFreshCache =
      { response := QuoteResponse.ok 7
        cache := demoFreshCache
        upstreamCalled := false } ∧
    (handleQuote demoUpstream 181000 181001
      (some "AAPL") demoFreshCache).upstreamCalled = true := by
  constructor
  · exact (handleQuote_freshness_window demoUpstream 180999 180999 "AAPL"
      demoFreshCache ⟨7, 1000⟩ (by decide) (by decide)).1 (by decide)
  · exact (handleQuote_freshness_window demoUpstream 181000 181001 "AAPL"
      demoFreshCache ⟨7, 1000⟩ (by decide) (by decide)).2 (by decide)

/-- C10: when the cached entry for `s` is stale (written 180000 ms or
more before the freshness check) and the upstream fetch returns absent,
the response is 404 with the error body and the cache — hence the stale
entry, payload and timestamp included — is completely unchanged. -/
theorem handleQuote_stale_absent_404 {α : Type}
    (upstream : String → Except String α) (now writeTime : Nat) (s : String)
    (cache : CacheData α) (entry : CachedQuote α) (hs : s ≠ "")
    (hget : cache.getEntry s = some entry)
    (hstale : entry.timestamp + 3 * 60 * 1000 ≤ now)
    (habsent : (fetchStockData s (upstream s)).1 = none) :
    handleQuote upstream now writeTime (some s) cache =
      { response := QuoteResponse.notFound "Symbol data not available"
        cache := cache
        upstreamCalled := true } := by
  have hfalsy : isFalsyParam (some s) = false := by simp [isFalsyParam, hs]
  have hlt : ¬ now - entry.timestamp < 3 * 60 * 1000 := by omega
  simp [handleQuote, hfalsy, hget, hlt, handleQuoteFetch, habsent]

/-- Witness for C10: a stale `AAPL` entry plus an upstream failure yields
404 and leaves the cache exactly as it was. -/
theorem handleQuote_stale_absent_404_witness :
    handleQuote demoUpstream 181000 181002 (some "AAPL") demoFreshCache =
      { response := QuoteResponse.notFound "Symbol data not available"
        cache := demoFreshCache
        upstreamCalled := true } :=
  handleQuote_stale_absent_404 demoUpstream 181000 181002 "AAPL"
    demoFreshCache ⟨7, 1000⟩ (by decide) (by decide) (by decide) (by decide)

theorem hasKey_handleQuoteFetch {α : Type}
    (upstream : String → Except String α) (writeTime : Nat) (symbol : String)
    (cache : CacheData α) (t : String) (h : cache.hasKey t = true) :
    (handleQuoteFetch upstream writeTime symbol cache).cache.hasKey t =
      true := by
  cases hft : (fetchStockData symbol (upstream symbol)).1 with
  | none => simpa [handleQuoteFetch, hft] using h
  | some d => simpa [handleQuoteFetch, hft] using hasKey_putEntry _ _ _ _ h

/-- C1: a run of the bulk refresher in which some symbol's fetch fails
still fetches every symbol of the list, in order (the trace equals the
whole list); every symbol whose fetch returned absent keeps its prior
cache entry (or continues to have none) untouched; and every symbol whose
fetch succeeded is written with the fetched payload. -/
theorem updateAllStocks_partial_failure_tolerant {α : Type}
    (upstream : String → Except String α) (clock : Nat → Nat)
    (symbols : List String) (qc : QuoteCache α) (s : String)
    (hs : s ∈ symbols) (hfail : (fetchStockData s (upstream s)).1 = none) :
    (updateAllStocks upstream clock symbols qc).2 = symbols ∧
    (∀ t, (fetchStockData t (upstream t)).1 = none →
      (updateAllStocks upstream clock symbols qc).1.data.getEntry t =
        qc.data.getEntry t) ∧
    ∀ t d, t ∈ symbols → (fetchStockData t (upstream t)).1 = some d →
      ∃ i < symbols.length,
        (updateAllStocks upstream clock symbols qc).1.data.getEntry t =
          some ⟨d, clock i⟩ := by
  refine ⟨?_, ?_, ?_⟩
  · simpa [updateAllStocks] using
      loop_fetched upstream clock symbols 0 ⟨qc.data, [], []⟩
  · intro t ht
    simpa [updateAllStocks] using
      loop_getEntry_of_fail upstream clock t ht symbols 0 ⟨qc.data, [], []⟩
  · intro t d ht hok
    obtain ⟨j, _, hj2, hj3⟩ :=
      loop_getEntry_of_success upstream clock t d hok symbols 0
        ⟨qc.data, [], []⟩ ht
    exact ⟨j, by simpa using hj2, by simpa [updateAllStocks] using hj3⟩

/-- Witness for C1: over `["AAPL", "MSFT", "AMZN"]` with the `AAPL` fetch
failing, all three symbols are still fetched, the prior `AAPL` entry is
untouched, and `MSFT` (after the failure) is written with its payload. -/
theorem updateAllStocks_partial_failure_tolerant_witness :
    (updateAllStocks demoUpstream demoClock demoSymbols demoCache0).2 =
      demoSymbols ∧
    (updateAllStocks demoUpstream demoClock demoSymbols
      demoCache0).1.data.getEntry "AAPL" = demoCache0.data.getEntry "AAPL" ∧
    ∃ i < demoSymbols.length,
      (updateAllStocks demoUpstream demoClock demoSymbols
        demoCache0).1.data.getEntry "MSFT" = some ⟨42, demoClock i⟩ := by
  have h := updateAllStocks_partial_failure_tolerant demoUpstream demoClock
    demoSymbols demoCache0 "AAPL" (by decide) (by decide)
  exact ⟨h.1, h.2.1 "AAPL" (by decide), h.2.2 "MSFT" 42 (by decide) (by decide)⟩

/-- C4: after one full refresher pass, every succeeded symbol holds an
entry written by that pass (its fetched payload stamped with one of the
pass's clock readings, a time at most the final `lastUpdated`), every
other symbol's entry is carried over unchanged, and `lastUpdated` is set
to the final clock reading unconditionally — also when no symbol
succeeded. -/
theorem updateAllStocks_pass_summary {α : Type}
    (upstream : String → Except String α) (clock : Nat → Nat)
    (symbols : List String) (qc : QuoteCache α) (hmono : Monotone clock) :
    (updateAllStocks upstream clock symbols qc).1.lastUpdated =
      clock symbols.length ∧
    (∀ s d, s ∈ symbols → (fetchStockData s (upstream s)).1 = some d →
      ∃ i < symbols.length,
        (updateAllStocks upstream clock symbols qc).1.data.getEntry s =
          some ⟨d, clock i⟩ ∧
        clock i ≤ (updateAllStocks upstream clock symbols qc).1.lastUpdated) ∧
    ∀ s, (s ∉ symbols ∨ (fetchStockData s (upstream s)).1 = none) →
      (updateAllStocks upstream clock symbols qc).1.data.getEntry s =
        qc.data.getEntry s := by
  refine ⟨by simp [updateAllStocks], ?_, ?_⟩
  · intro s d hmem hok
    obtain ⟨j, _, hj2, hj3⟩ :=
      loop_getEntry_of_success upstream clock s d hok symbols 0
        ⟨qc.data, [], []⟩ hmem
    have hjlen : j < symbols.length := by simpa using hj2
    refine ⟨j, hjlen, by simpa [updateAllStocks] using hj3, ?_⟩
    have : clock j ≤ clock symbols.length := hmono (le_of_lt hjlen)
    simpa [updateAllStocks] using this
  · intro s hcase
    rcases hcase with hnm | hfail
    · simpa [updateAllStocks] using
        loop_getEntry_of_not_mem upstream clock s symbols hnm 0 ⟨qc.data, [], []⟩
    · simpa [updateAllStocks] using
        loop_getEntry_of_fail upstream clock s hfail symbols 0 ⟨qc.data, [], []⟩

/-- Witness for C4 on the concrete fixture: `lastUpdated` equals the
final clock reading, the succeeded symbol `AMZN` carries a pass
timestamp bounded by `lastUpdated`, and the failed symbol `AAPL` keeps
its carried-over entry. -/
theorem updateAllStocks_pass_summary_witness :
    (updateAllStocks demoUpstream demoClock demoSymbols
      demoCache0).1.lastUpdated = demoClock demoSymbols.length ∧
    (∃ i < demoSymbols.length,
      (updateAllStocks demoUpstream demoClock demoSymbols
        demoCache0).1.data.getEntry "AMZN" = some ⟨42, demoClock i⟩ ∧
      demoClock i ≤ (updateAllStocks demoUpstream demoClock demoSymbols
        demoCache0).1.lastUpdated) ∧
    (updateAllStocks demoUpstream demoClock demoSymbols
      demoCache0).1.data.getEntry "AAPL" = demoCache0.data.getEntry "AAPL" := by
  have h := updateAllStocks_pass_summary demoUpstream demoClock demoSymbols
    demoCache0 (fun a b hab => by simp only [demoClock]; omega)
  exact ⟨h.1, h.2.1 "AMZN" 42 (by decide) (by decide),
         h.2.2 "AAPL" (Or.inr (by decide))⟩

/-- C5: the `/api/quotes` response carries the collection-level
`lastUpdated` and a `data` mapping with exactly the cache's key set — no
freshness filtering — where every key is mapped to its stored payload
with the per-entry timestamp stripped. -/
theorem handleQuotes_snapshot_spec {α : Type} (qc : QuoteCache α) :
    (handleQuotes qc).1 = qc.lastUpdated ∧
    (handleQuotes qc).2.map Prod.fst = qc.data.map Prod.fst ∧
    ∀ s : String, lookupPayload (handleQuotes qc).2 s =
      (qc.data.getEntry s).map CachedQuote.data := by
  refine ⟨rfl, ?_, ?_⟩
  · show (snapshot qc.data).map Prod.fst = qc.data.map Prod.fst
    induction qc.data with
    | nil => rfl
    | cons p rest ih => simpa [snapshot] using ih
  · intro s
    show lookupPayload (snapshot qc.data) s =
      (qc.data.getEntry s).map CachedQuote.data
    induction qc.data with
    | nil => rfl
    | cons p rest ih =>
        by_cases h : p.1 = s
        · simp [snapshot, lookupPayload, getEntry_cons, h, List.find?_cons]
        · simp only [snapshot, lookupPayload, List.map_cons,
            List.find?_cons, getEntry_cons] at ih ⊢
          simp only [h, decide_False, if_false]
          simpa [snapshot, lookupPayload] using ih

/-- C8: no cache operation deletes a key: property writes only create or
overwrite entries, and both the bulk refresher and the on-demand
`/api/quote` handler preserve every key already present. -/
theorem cache_keys_never_shrink {α : Type} :
    (∀ (c : CacheData α) (s t : String) (e : CachedQuote α),
      c.hasKey t = true → (c.putEntry s e).hasKey t = true) ∧
    (∀ (upstream : String → Except String α) (clock : Nat → Nat)
      (symbols : List String) (qc : QuoteCache α) (t : String),
      qc.data.hasKey t = true →
      (updateAllStocks upstream clock symbols qc).1.data.hasKey t = true) ∧
    (∀ (upstream : String → Except String α) (now writeTime : Nat)
      (symbolParam : Option String) (cache : CacheData α) (t : String),
      cache.hasKey t = true →
      (handleQuote upstream now writeTime symbolParam cache).cache.hasKey t =
        true) := by
  refine ⟨fun c s t e h => hasKey_putEntry c s t e h, ?_, ?_⟩
  · intro upstream clock symbols qc t h
    simpa [updateAllStocks] using
      loop_hasKey upstream clock t symbols 0 ⟨qc.data, [], []⟩ (by simpa using h)
  · intro upstream now writeTime symbolParam cache t h
    cases hf : isFalsyParam symbolParam with
    | true => simpa [handleQuote, hf] using h
    | false =>
        cases hget : cache.getEntry (symbolParam.getD "") with
        | some entry =>
            by_cases hfr : now - entry.timestamp < 3 * 60 * 1000
            · simpa [handleQuote, hf, hget, hfr] using h
            · simpa [handleQuote, hf, hget, hfr] using
                hasKey_handleQuoteFetch upstream writeTime
                  (symbolParam.getD "") cache t h
        | none =>
            simpa [handleQuote, hf, hget] using
              hasKey_handleQuoteFetch upstream writeTime
                (symbolParam.getD "") cache t h

/-- Witness for C8: an existing `AAPL` key survives a property write for
another symbol, a full refresher pass, and a stale-refetch request. -/
theorem cache_keys_never_shrink_witness :
    (CacheData.putEntry demoFreshCache "MSFT" ⟨42, 2⟩).hasKey "AAPL" = true ∧
    (updateAllStocks demoUpstream demoClock demoSymbols
      demoCache0).1.data.hasKey "AAPL" = true ∧
    (handleQuote demoUpstream 181000 181001 (some "AAPL")
      demoFreshCache).cache.hasKey "AAPL" = true := by
  have h := @cache_keys_never_shrink Nat
  exact ⟨h.1 demoFreshCache "MSFT" "AAPL" ⟨42, 2⟩ (by decide),
         h.2.1 demoUpstream demoClock demoSymbols demoCache0 "AAPL" (by decide),
         h.2.2 demoUpstream 181000 181001 (some "AAPL") demoFreshCache
           "AAPL" (by decide)⟩

/-- C9: with `priorCount` requests already counted for an IP in the
current 15-minute window, a request numbered `priorCount + 1` up to 100
is passed to the handler unchanged, and the 101st request is rejected
with the fixed message and standard rate-limit headers, with the cache
untouched and no upstream call. -/
theorem rateLimit_window_spec {α : Type} (priorCount : Nat)
    (upstream : String → Except String α) (now writeTime : Nat)
    (symbolParam : Option String) (cache : CacheData α) :
    (priorCount + 1 ≤ 100 →
      rateLimitedQuote priorCount upstream now writeTime symbolParam cache =
        { decision := LimiterDecision.allowed
          handled := some (handleQuote upstream now writeTime symbolParam cache)
          cache := (handleQuote upstream now writeTime symbolParam cache).cache
          upstreamCalled :=
            (handleQuote upstream now writeTime symbolParam
              cache).upstreamCalled }) ∧
    (priorCount + 1 = 101 →
      rateLimitedQuote priorCount upstream now writeTime symbolParam cache =
        { decision := LimiterDecision.rejected
            "Too many requests, please try again later" true
          handled := none
          cache := cache
          upstreamCalled := false }) := by
  constructor
  · intro h
    have hlt : priorCount < maxPerWindow := by
      simp only [maxPerWindow]; omega
    simp [rateLimitedQuote, rateLimit, hlt]
  · intro h
    have hge : ¬ priorCount < maxPerWindow := by
      simp only [maxPerWindow]; omega
    simp [rateLimitedQuote, rateLimit, hge, rateLimitMessage]

/-- Witness for C9: request number 1 reaches the handler; request number
101 is rejected with the fixed message, leaving the cache as it was. -/
theorem rateLimit_window_spec_witness :
    rateLimitedQuote 0 demoUpstream 181000 181001 (some "MSFT")
      demoFreshCache =
      { decision := LimiterDecision.allowed
        handled := some (handleQuote demoUpstream 181000 181001 (some "MSFT")
          demoFreshCache)
        cache := (handleQuote demoUpstream 181000 181001 (some "MSFT")
          demoFreshCache).cache
        upstreamCalled := (handleQuote demoUpstream 181000 181001
          (some "MSFT") demoFreshCache).upstreamCalled } ∧
    rateLimitedQuote 100 demoUpstream 181000 181001 (some "MSFT")
      demoFreshCache =
      { decision := LimiterDecision.rejected
          "Too many requests, please try again later" true
        handled := none
        cache := demoFreshCache
        upstreamCalled := false } :=
  ⟨(rateLimit_window_spec 0 demoUpstream 181000 181001 (some "MSFT")
      demoFreshCache).1 (by decide),
   (rateLimit_window_spec 100 demoUpstream 181000 181001 (some "MSFT")
      demoFreshCache).2 rfl⟩

end HwInvestProxy
